import Mathlib

set_option maxHeartbeats 1000000

/-!
Shallow embedding of src/video_metadata/video_metadata.py.

Python dicts with a fixed field universe become structures with Option
fields (a missing key is none); Python None becomes the none of an outer
Option; an exception becomes the error branch of Except Fault.  The
external Google API collaborator (build and the client object) appears as
function parameters, since the network call is outside the embedded code.
-/

/-- Faults modelling the Python exceptions the module can raise:
ValueError (construction guard), KeyError (dict subscript on a missing
key), IndexError (list subscript out of range), TypeError (subscripting
None), AttributeError (method call on None), StopIteration (iterator
exhaustion). -/
inductive Fault where
  | valueError
  | keyError
  | indexError
  | typeError
  | attributeError
  | stopIteration
  deriving DecidableEq, Repr

instance {ε α : Type} [DecidableEq ε] [DecidableEq α] : DecidableEq (Except ε α) := fun a b =>
  match a, b with
  | .ok x, .ok y =>
    match decEq x y with
    | isTrue h => isTrue (congrArg Except.ok h)
    | isFalse h => isFalse (fun hh => h (by cases hh; rfl))
  | .error x, .error y =>
    match decEq x y with
    | isTrue h => isTrue (congrArg Except.error h)
    | isFalse h => isFalse (fun hh => h (by cases hh; rfl))
  | .ok _, .error _ => isFalse (fun hh => Except.noConfusion hh)
  | .error _, .ok _ => isFalse (fun hh => Except.noConfusion hh)

/-- The snippet substructure of a video item.  Every field is optional,
mirroring a Python dict that may lack any of these keys. -/
structure Snippet where
  categoryId : Option String
  channelId : Option String
  channelTitle : Option String
  title : Option String
  tags : Option (List String)
  description : Option String
  publishedAt : Option String
  deriving DecidableEq, Repr

/-- A raw video item dict: a top-level id key and a nested snippet dict,
both possibly missing. -/
structure VideoRecord where
  id : Option String
  snippet : Option Snippet
  deriving DecidableEq, Repr

/-- Python truthiness of a VideoRecord dict: an empty dict is falsy, a
dict with at least one key is truthy. -/
def truthy (r : VideoRecord) : Bool :=
  r.id.isSome || r.snippet.isSome

/-- The mutable state of a VideoMetadata instance: the traversal index,
the current metadata (Python None initially and for absence markers), and
the reconciled batch whose entries are either a record or the absence
marker None. -/
structure VMState where
  _index_next_video : Nat
  _current_metadata : Option VideoRecord
  _multi_metadata : List (Option VideoRecord)
  deriving DecidableEq, Repr

/-- The external API client, modelled as the items list it returns for a
requested id list (source line 135 to 137). -/
def Client : Type := List String → List VideoRecord

/-- One pass of the inner while-loop of _mark_unavailable_videos (source
lines 212 to 223): consume requested ids until one equals the id of
vid_result, emitting None for every skipped id and the record itself at
the match; StopIteration when the request iterator runs out, KeyError
when the record lacks an id key. -/
def matchOne (vid_result : VideoRecord) :
    List String → Except Fault (List (Option VideoRecord) × List String)
  | [] => .error .stopIteration
  | r :: rs =>
    match vid_result.id with
    | none => .error .keyError
    | some rid =>
      if r = rid then .ok ([some vid_result], rs)
      else
        match matchOne vid_result rs with
        | .ok (acc, rest) => .ok (none :: acc, rest)
        | .error e => .error e

/-- The for-loop of _mark_unavailable_videos over vids_result (source
lines 211 to 227), threading the request iterator state; the base case is
the trailing fill of the remaining requests with None. -/
def markLoop : List String → List VideoRecord → Except Fault (List (Option VideoRecord))
  | rs, [] => .ok (rs.map fun _ => none)
  | rs, v :: vs =>
    match matchOne v rs with
    | .ok (acc, rest) =>
      match markLoop rest vs with
      | .ok out => .ok (acc ++ out)
      | .error e => .error e
    | .error e => .error e

/-- Model of _mark_unavailable_videos (source lines 197 to 229): fills
requests whose ids got no result with None, short-circuiting when the
result list is empty. -/
def _mark_unavailable_videos (vids_requested : List String)
    (vids_result : List VideoRecord) : Except Fault (List (Option VideoRecord)) :=
  if vids_result.length = 0 then .ok (vids_requested.map fun _ => none)
  else markLoop vids_requested vids_result

namespace VideoMetadata

/-- Category code to name table (source lines 13 to 45) as an association
list in source order. -/
def _CATEGORY_ID_TO_NAME : List (String × String) :=
  [("1", "Film & Animation"),
   ("2", "Autos & Vehicles"),
   ("10", "Music"),
   ("15", "Pets & Animals"),
   ("17", "Sports"),
   ("18", "ShortMovies"),
   ("19", "Travel & Events"),
   ("20", "Gaming"),
   ("21", "Videoblogging"),
   ("22", "People & Blogs"),
   ("23", "Comedy"),
   ("24", "Entertainment"),
   ("25", "News & Politics"),
   ("26", "Howto & Style"),
   ("27", "Education"),
   ("28", "Science & Technology"),
   ("29", "Nonprofits & Activism"),
   ("30", "Movies"),
   ("31", "Anime/Animation"),
   ("32", "Action/Adventure"),
   ("33", "Classics"),
   ("34", "Comedy"),
   ("35", "Documentary"),
   ("36", "Drama"),
   ("37", "Family"),
   ("38", "Foreign"),
   ("39", "Horror"),
   ("40", "Sci-Fi/Fantasy"),
   ("41", "Thriller"),
   ("42", "Shorts"),
   ("43", "Shows"),
   ("44", "Trailers")]

/-- Model of the constructor (source lines 47 to 84), in source order:
index set to 0; the client guard, raising ValueError when neither client
nor a non-empty dev_key is given; current metadata set to None; the fetch
branch when video_id is truthy (calling _get_video_metadata, source lines
134 to 139); finally the json branch, truthy whenever the items dict is
given, overwriting the batch with the items list. -/
def init (build : String → Client) (video_id : List String) (dev_key : String)
    (json : Option (List (Option VideoRecord))) (client : Option Client) :
    Except Fault VMState :=
  match (match client with
         | some c => Except.ok c
         | none =>
           if dev_key ≠ "" then Except.ok (build dev_key)
           else Except.error Fault.valueError) with
  | .error e => .error e
  | .ok cl =>
    match (if video_id ≠ [] then
             match _mark_unavailable_videos video_id (cl video_id) with
             | .error e => .error e
             | .ok multi =>
               match multi[0]? with
               | some m => Except.ok (multi, m)
               | none => Except.error Fault.indexError
           else Except.ok (([] : List (Option VideoRecord)), (none : Option VideoRecord))) with
    | .error e => .error e
    | .ok (multi1, current1) =>
      match json with
      | some items => .ok ⟨0, current1, items⟩
      | none => .ok ⟨0, current1, multi1⟩

/-- Model of available (source lines 86 to 91): Python truthiness of the
current metadata; None and an empty dict are both falsy. -/
def available (s : VMState) : Bool :=
  match s._current_metadata with
  | some r => truthy r
  | none => false

/-- Model of __len__ (source lines 93 to 95). -/
def len (s : VMState) : Nat :=
  s._multi_metadata.length

/-- Model of __iter__ (source lines 97 to 100): reset the index to 0. -/
def iter (s : VMState) : VMState :=
  { s with _index_next_video := 0 }

/-- Model of __next__ (source lines 102 to 114): on an in-range index the
current metadata is updated and the index incremented; an out-of-range
subscript raises StopIteration before any mutation, so the state is
returned unchanged alongside the fault. -/
def next (s : VMState) : Except Fault Unit × VMState :=
  match s._multi_metadata[s._index_next_video]? with
  | some m =>
    (.ok (), { s with _current_metadata := m,
                      _index_next_video := s._index_next_video + 1 })
  | none => (.error .stopIteration, s)

/-- Python list slicing l[a:b] for nonnegative bounds: drop then take,
clamping at the ends exactly as Python does. -/
def pySlice (l : List (Option VideoRecord)) (a b : Nat) : List (Option VideoRecord) :=
  (l.drop a).take (b - a)

/-- Model of __getitem__ on a slice (source lines 116 to 119): a new
container built from the sliced items, passing neither dev_key nor
client. -/
def getitem (build : String → Client) (s : VMState) (a b : Nat) :
    Except Fault VMState :=
  init build [] "" (some (pySlice s._multi_metadata a b)) none

/-- Model of the id property (source lines 121 to 123): subscripting None
raises TypeError, a missing id key raises KeyError. -/
def id (s : VMState) : Except Fault String :=
  match s._current_metadata with
  | none => .error .typeError
  | some r =>
    match r.id with
    | none => .error .keyError
    | some v => .ok v

/-- Model of the category_id property (source lines 144 to 154): dict.get
at both levels, defaulting to an empty string; calling get on None raises
AttributeError. -/
def category_id (s : VMState) : Except Fault String :=
  match s._current_metadata with
  | none => .error .attributeError
  | some r =>
    match r.snippet with
    | none => .ok ""
    | some sn =>
      match sn.categoryId with
      | none => .ok ""
      | some cid => .ok cid

/-- Model of the category_name property (source lines 156 to 158): dict
subscript into the fixed table, raising KeyError on an unknown code. -/
def category_name (s : VMState) : Except Fault String :=
  match category_id s with
  | .error e => .error e
  | .ok cid =>
    match _CATEGORY_ID_TO_NAME.lookup cid with
    | some n => .ok n
    | none => .error .keyError

/-- Model of the channel_id property (source lines 160 to 165): KeyError
at either nesting level is caught and becomes an empty string; the
TypeError from subscripting None is not caught. -/
def channel_id (s : VMState) : Except Fault String :=
  match s._current_metadata with
  | none => .error .typeError
  | some r =>
    match r.snippet with
    | none => .ok ""
    | some sn => .ok (sn.channelId.getD "")

/-- Model of the channel_title property (source lines 167 to 172). -/
def channel_title (s : VMState) : Except Fault String :=
  match s._current_metadata with
  | none => .error .typeError
  | some r =>
    match r.snippet with
    | none => .ok ""
    | some sn => .ok (sn.channelTitle.getD "")

/-- Model of the title property (source lines 174 to 176): mandatory, a
missing key at either level raises KeyError, None raises TypeError. -/
def title (s : VMState) : Except Fault String :=
  match s._current_metadata with
  | none => .error .typeError
  | some r =>
    match r.snippet with
    | none => .error .keyError
    | some sn =>
      match sn.title with
      | none => .error .keyError
      | some t => .ok t

/-- Model of the keywords property (source lines 178 to 185): KeyError at
either level is caught and becomes an empty list. -/
def keywords (s : VMState) : Except Fault (List String) :=
  match s._current_metadata with
  | none => .error .typeError
  | some r =>
    match r.snippet with
    | none => .ok []
    | some sn => .ok (sn.tags.getD [])

/-- Model of the description property (source lines 187 to 190). -/
def description (s : VMState) : Except Fault String :=
  match s._current_metadata with
  | none => .error .typeError
  | some r =>
    match r.snippet with
    | none => .error .keyError
    | some sn =>
      match sn.description with
      | none => .error .keyError
      | some d => .ok d

/-- Model of the time_published property (source lines 192 to 194). -/
def time_published (s : VMState) : Except Fault String :=
  match s._current_metadata with
  | none => .error .typeError
  | some r =>
    match r.snippet with
    | none => .error .keyError
    | some sn =>
      match sn.publishedAt with
      | none => .error .keyError
      | some t => .ok t

end VideoMetadata

/-- The client-call sequence reset; advance; advance; reset, with Python
exception propagation: a StopIteration from either advance aborts the
sequence, leaving the object state as the failed call left it. -/
def reset_advance_advance_reset (s : VMState) : Except Fault Unit × VMState :=
  let p1 := VideoMetadata.next (VideoMetadata.iter s)
  match p1.1 with
  | .error e => (.error e, p1.2)
  | .ok _ =>
    let p2 := VideoMetadata.next p1.2
    match p2.1 with
    | .error e => (.error e, p2.2)
    | .ok _ => (.ok (), VideoMetadata.iter p2.2)

/-- Iterated advance: n calls of __next__, keeping the state each call
leaves behind. -/
def advN : Nat → VMState → VMState
  | 0, s => s
  | n + 1, s => advN n (VideoMetadata.next s).2

lemma matchOne_sub (v : VideoRecord) (rid : String) (hid : v.id = some rid) :
    ∀ (rs : List String) (tl : List (Option String)),
      List.Sublist (some rid :: tl) (rs.map some) →
      ∃ pre rest,
        matchOne v rs = .ok (pre.map (fun _ => (none : Option VideoRecord)) ++ [some v], rest) ∧
        rs = pre ++ rid :: rest ∧ List.Sublist tl (rest.map some) := by
  intro rs
  induction rs with
  | nil => intro tl h; simp at h
  | cons r rs ih =>
    intro tl h
    rw [List.map_cons] at h
    by_cases hr : r = rid
    · subst hr
      refine ⟨[], rs, by simp [matchOne, hid], rfl, ?_⟩
      exact List.cons_sublist_cons.mp h
    · have h' : List.Sublist (some rid :: tl) (rs.map some) := by
        cases h with
        | cons _ h' => exact h'
        | cons₂ _ h' => exact absurd rfl hr
      obtain ⟨pre, rest, heq, hrs, htl⟩ := ih tl h'
      refine ⟨r :: pre, rest, ?_, ?_, htl⟩
      · simp [matchOne, hid, hr, heq]
      · rw [hrs]; rfl

lemma markLoop_sub :
    ∀ (vs : List VideoRecord) (rs : List String),
      List.Sublist (vs.map fun v => v.id) (rs.map some) →
      ∃ out, markLoop rs vs = .ok out ∧ out.length = rs.length ∧
        ∀ (i : Nat) (r : VideoRecord), out[i]? = some (some r) → r.id = rs[i]? := by
  intro vs
  induction vs with
  | nil =>
    intro rs _
    refine ⟨rs.map fun _ => none, rfl, by simp, ?_⟩
    intro i r h
    rw [List.getElem?_map] at h
    cases hx : rs[i]? with
    | none => rw [hx] at h; simp at h
    | some q => rw [hx] at h; simp at h
  | cons v vs ih =>
    intro rs h
    rw [List.map_cons] at h
    have hmem : v.id ∈ rs.map some := h.subset (List.mem_cons_self _ _)
    obtain ⟨rid, _, hid⟩ := List.mem_map.mp hmem
    have hid' : v.id = some rid := hid.symm
    rw [hid'] at h
    obtain ⟨pre, rest, heq, hrs, htl⟩ := matchOne_sub v rid hid' rs _ h
    obtain ⟨out', hml, hlen, hpos⟩ := ih rest htl
    refine ⟨((pre.map fun _ => none) ++ [some v]) ++ out', ?_, ?_, ?_⟩
    · simp [markLoop, heq, hml]
    · simp [hrs, hlen]
    · intro i r hi
      rw [List.getElem?_append] at hi
      split_ifs at hi with hlt
      · rw [List.getElem?_append] at hi
        split_ifs at hi with hlt2
        · rw [List.getElem?_map] at hi
          cases hq : pre[i]? with
          | none => rw [hq] at hi; simp at hi
          | some q => rw [hq] at hi; simp at hi
        · have hip : i = pre.length := by simp at hlt hlt2 ⊢; omega
          subst hip
          simp at hi
          subst hi
          rw [hrs, List.getElem?_append_right (by simp)]
          simp [hid']
      · simp at hlt
        obtain ⟨j, hj⟩ : ∃ j, i = (pre.length + 1) + j := by
          refine ⟨i - (pre.length + 1), ?_⟩
          omega
        subst hj
        have h1 : out'[(pre.length + 1 + j) - ((pre.map fun _ => (none : Option VideoRecord)) ++ [some v]).length]? = some (some r) := hi
        have h2 : out'[j]? = some (some r) := by
          simpa using h1
        have := hpos j r h2
        rw [this, hrs]
        rw [List.getElem?_append_right (by omega)]
        have harith : pre.length + 1 + j - pre.length = j + 1 := by omega
        rw [harith]
        simp

lemma matchOne_err (v : VideoRecord) (hid : v.id ≠ none) :
    ∀ (rs : List String) (e : Fault), matchOne v rs = .error e → e = .stopIteration := by
  intro rs
  induction rs with
  | nil =>
    intro e h
    simp [matchOne] at h
    exact h.symm
  | cons r rs ih =>
    intro e h
    cases hv : v.id with
    | none => exact absurd hv hid
    | some rid =>
      simp only [matchOne, hv] at h
      by_cases hr : r = rid
      · rw [if_pos hr] at h
        simp at h
      · rw [if_neg hr] at h
        cases hm : matchOne v rs with
        | ok p => rw [hm] at h; simp at h
        | error e2 =>
          rw [hm] at h
          simp at h
          exact h ▸ ih e2 hm

lemma markLoop_err (vs : List VideoRecord) (hids : ∀ v ∈ vs, v.id ≠ none) :
    ∀ (rs : List String) (e : Fault), markLoop rs vs = .error e → e = .stopIteration := by
  induction vs with
  | nil => intro rs e h; simp [markLoop] at h
  | cons v vs ih =>
    intro rs e h
    simp only [markLoop] at h
    cases hm : matchOne v rs with
    | error e2 =>
      rw [hm] at h
      simp at h
      exact h ▸ matchOne_err v (hids v (List.mem_cons_self _ _)) rs e2 hm
    | ok p =>
      obtain ⟨acc, rest⟩ := p
      rw [hm] at h
      cases hml : markLoop rest vs with
      | ok out2 => simp [hml] at h
      | error e2 =>
        simp [hml] at h
        exact h ▸ ih (fun w hw => hids w (List.mem_cons_of_mem _ hw)) rest e2 hml

lemma matchOne_complete (v : VideoRecord) :
    ∀ (rs : List String) (acc : List (Option VideoRecord)) (rest : List String),
      matchOne v rs = .ok (acc, rest) →
      ∃ rid pre, v.id = some rid ∧ rs = pre ++ rid :: rest := by
  intro rs
  induction rs with
  | nil => intro acc rest h; simp [matchOne] at h
  | cons r rs ih =>
    intro acc rest h
    cases hv : v.id with
    | none => simp [matchOne, hv] at h
    | some rid =>
      simp only [matchOne, hv] at h
      by_cases hr : r = rid
      · rw [if_pos hr] at h
        cases h
        exact ⟨rid, [], rfl, by simp [hr]⟩
      · rw [if_neg hr] at h
        cases hm : matchOne v rs with
        | error e => rw [hm] at h; simp at h
        | ok p =>
          obtain ⟨acc2, rest2⟩ := p
          rw [hm] at h
          cases h
          obtain ⟨rid2, pre, hid2, hrs⟩ := ih acc2 rest hm
          have hr2 : rid2 = rid := by
            rw [hv] at hid2
            exact (Option.some_inj.mp hid2).symm
          subst hr2
          refine ⟨rid2, r :: pre, rfl, ?_⟩
          rw [hrs, List.cons_append]

lemma markLoop_complete :
    ∀ (vs : List VideoRecord) (rs : List String) (out : List (Option VideoRecord)),
      markLoop rs vs = .ok out →
      List.Sublist (vs.map fun v => v.id) (rs.map some) := by
  intro vs
  induction vs with
  | nil => intro rs out _; simp
  | cons v vs ih =>
    intro rs out h
    simp only [markLoop] at h
    cases hm : matchOne v rs with
    | error e => rw [hm] at h; simp at h
    | ok p =>
      obtain ⟨acc, rest⟩ := p
      rw [hm] at h
      cases hml : markLoop rest vs with
      | error e => simp [hml] at h
      | ok out2 =>
        obtain ⟨rid, pre, hid, hrs⟩ := matchOne_complete v rs acc rest hm
        have hsub2 := ih rest out2 hml
        rw [List.map_cons, hid, hrs, List.map_append]
        have hcons : List.Sublist (some rid :: vs.map fun v => v.id) ((rid :: rest).map some) := by
          rw [List.map_cons]
          exact List.cons_sublist_cons.mpr hsub2
        exact hcons.trans (List.sublist_append_right _ _)

lemma next_out_of_range (s : VMState)
    (h : s._multi_metadata[s._index_next_video]? = none) :
    VideoMetadata.next s = (.error .stopIteration, s) := by
  unfold VideoMetadata.next
  rw [h]

lemma advN_run (n : Nat) : ∀ s : VMState,
    s._index_next_video + (n + 1) = s._multi_metadata.length →
    (advN (n + 1) s)._multi_metadata = s._multi_metadata ∧
    (advN (n + 1) s)._index_next_video = s._multi_metadata.length ∧
    some (advN (n + 1) s)._current_metadata = s._multi_metadata.getLast? := by
  induction n with
  | zero =>
    intro s h
    cases hx : s._multi_metadata[s._index_next_video]? with
    | none =>
      rw [List.getElem?_eq_none_iff] at hx
      omega
    | some m =>
      have hstep : advN 1 s =
          ⟨s._index_next_video + 1, m, s._multi_metadata⟩ := by
        show (VideoMetadata.next s).2 = _
        unfold VideoMetadata.next
        rw [hx]
      rw [hstep]
      refine ⟨rfl, by simp; omega, ?_⟩
      have hidx : s._index_next_video = s._multi_metadata.length - 1 := by omega
      calc some m = s._multi_metadata[s._index_next_video]? := hx.symm
        _ = s._multi_metadata[s._multi_metadata.length - 1]? := by rw [hidx]
        _ = s._multi_metadata.getLast? := (List.getLast?_eq_getElem? _).symm
  | succ n ih =>
    intro s h
    cases hx : s._multi_metadata[s._index_next_video]? with
    | none =>
      rw [List.getElem?_eq_none_iff] at hx
      omega
    | some m =>
      have hstep : (VideoMetadata.next s).2 =
          ⟨s._index_next_video + 1, m, s._multi_metadata⟩ := by
        unfold VideoMetadata.next
        rw [hx]
      have hchain : advN (n + 1 + 1) s = advN (n + 1) (VideoMetadata.next s).2 := rfl
      rw [hchain, hstep]
      have := ih ⟨s._index_next_video + 1, m, s._multi_metadata⟩ (by simp; omega)
      simpa using this

/-- C1: for every requested id list R and returned record list S satisfying the
precondition (the id sequence of S is an order-preserving subsequence of R and
no id occurs twice in S), the reconciler returns a list whose length equals the
length of R, following the order of R, and every non-absent entry at position i carries the
id R[i]. -/
theorem reconcile_postcondition (R : List String) (S : List VideoRecord)
    (hsub : List.Sublist (S.map fun v => v.id) (R.map some))
    (hnodup : (S.map fun v => v.id).Nodup) :
    ∃ out, _mark_unavailable_videos R S = .ok out ∧ out.length = R.length ∧
      ∀ (i : Nat) (r : VideoRecord), out[i]? = some (some r) → r.id = R[i]? := by
  cases S with
  | nil =>
    refine ⟨R.map fun _ => none, rfl, by simp, ?_⟩
    intro i r h
    rw [List.getElem?_map] at h
    cases hx : R[i]? with
    | none => rw [hx] at h; simp at h
    | some q => rw [hx] at h; simp at h
  | cons v vs =>
    unfold _mark_unavailable_videos
    rw [if_neg (by simp)]
    exact markLoop_sub (v :: vs) R hsub

/-- Witness for C1 at R = [A, B, C], S = records for A and C. -/
theorem reconcile_postcondition_witness :
    (List.Sublist (([⟨some "A", none⟩, ⟨some "C", none⟩] : List VideoRecord).map fun v => v.id)
      ((["A", "B", "C"] : List String).map some) ∧
     (([⟨some "A", none⟩, ⟨some "C", none⟩] : List VideoRecord).map fun v => v.id).Nodup) ∧
    (∃ out, _mark_unavailable_videos ["A", "B", "C"] [⟨some "A", none⟩, ⟨some "C", none⟩] = .ok out ∧
      out.length = (["A", "B", "C"] : List String).length ∧
      ∀ (i : Nat) (r : VideoRecord), out[i]? = some (some r) → r.id = (["A", "B", "C"] : List String)[i]?) :=
  ⟨⟨by decide, by decide⟩,
   reconcile_postcondition ["A", "B", "C"] [⟨some "A", none⟩, ⟨some "C", none⟩] (by decide) (by decide)⟩

/-- C2: when the id sequence of S (all ids present) is not an order-preserving
subsequence of R - some returned id is missing from the remainder of R at the
point it is processed - the reconciler fails by exhausting the request cursor,
propagating StopIteration rather than returning a result or a dedicated
error. -/
theorem reconcile_precondition_violation (R : List String) (S : List VideoRecord)
    (hids : ∀ v ∈ S, v.id ≠ none)
    (hsub : ¬ List.Sublist (S.map fun v => v.id) (R.map some)) :
    _mark_unavailable_videos R S = .error .stopIteration := by
  have hS : S ≠ [] := by rintro rfl; exact hsub (by simp)
  unfold _mark_unavailable_videos
  rw [if_neg (by simpa using hS)]
  cases h : markLoop R S with
  | ok out => exact absurd (markLoop_complete S R out h) hsub
  | error e => rw [markLoop_err S hids R e h]

/-- Witness for C2 at R = [A], S = record for B. -/
theorem reconcile_precondition_violation_witness :
    ((∀ v ∈ ([⟨some "B", none⟩] : List VideoRecord), v.id ≠ none) ∧
     ¬ List.Sublist (([⟨some "B", none⟩] : List VideoRecord).map fun v => v.id)
       ((["A"] : List String).map some)) ∧
    _mark_unavailable_videos ["A"] [⟨some "B", none⟩] = .error .stopIteration :=
  ⟨⟨by decide, by decide⟩,
   reconcile_precondition_violation ["A"] [⟨some "B", none⟩] (by decide) (by decide)⟩

/-- C6: with an empty returned list the reconciler short-circuits and returns
exactly length-of-R absence markers, for every requested list R. -/
theorem reconcile_empty_returned (R : List String) :
    _mark_unavailable_videos R [] = .ok (List.replicate R.length none) := by
  have hconst : (fun _ : String => (none : Option VideoRecord)) = Function.const String none := rfl
  unfold _mark_unavailable_videos
  simp only [List.length_nil, if_true, hconst, List.map_const]


/-- C3 demonstration: slicing any Result Container always raises the
configuration ValueError, because __getitem__ constructs the new instance
with neither dev_key nor client and the constructor guard fires before the
json branch is reached. -/
theorem getitem_slice_raises (build : String → Client) (s : VMState) (a b : Nat) :
    VideoMetadata.getitem build s a b = .error .valueError := rfl

/-- C4 demonstration: constructing from a pre-fetched response with neither
dev_key nor client raises ValueError instead of succeeding without a fetch. -/
theorem init_json_only_raises (build : String → Client) (items : List (Option VideoRecord)) :
    VideoMetadata.init build [] "" (some items) none = .error .valueError := rfl

/-- C5 counterexample: the category table resolves code 24 to Entertainment,
not Comedy, refuting the claim at input code 24 (Comedy is at codes 23 and 34). -/
theorem category_name_24_counterexample :
    VideoMetadata.category_name
      ⟨0, some ⟨some "X", some ⟨some "24", none, none, none, none, none, none⟩⟩, []⟩ =
      .ok "Entertainment" ∧
    VideoMetadata.category_name
      ⟨0, some ⟨some "X", some ⟨some "24", none, none, none, none, none, none⟩⟩, []⟩ ≠
      .ok "Comedy" := by
  exact ⟨rfl, by decide⟩

/-- C5 amended: code 34 resolves to Comedy, code 24 to Entertainment, and a
code outside the table such as 999 raises the KeyError lookup fault. -/
theorem category_name_lookup :
    VideoMetadata.category_name
      ⟨0, some ⟨some "X", some ⟨some "34", none, none, none, none, none, none⟩⟩, []⟩ =
      .ok "Comedy" ∧
    VideoMetadata.category_name
      ⟨0, some ⟨some "X", some ⟨some "24", none, none, none, none, none, none⟩⟩, []⟩ =
      .ok "Entertainment" ∧
    VideoMetadata.category_name
      ⟨0, some ⟨some "X", some ⟨some "999", none, none, none, none, none, none⟩⟩, []⟩ =
      .error .keyError := ⟨rfl, rfl, rfl⟩

/-- C7 counterexample: a present but empty record dict is reachable (via a
json construction and one advance) and is falsy, so available() returns
false although the current record is not the absence marker None. -/
theorem available_empty_record_counterexample :
    VideoMetadata.init (fun _ => fun _ => []) [] "" (some [some ⟨none, none⟩]) (some fun _ => []) =
      .ok ⟨0, none, [some ⟨none, none⟩]⟩ ∧
    (VideoMetadata.next ⟨0, none, [some ⟨none, none⟩]⟩).2 =
      ⟨1, some ⟨none, none⟩, [some ⟨none, none⟩]⟩ ∧
    (⟨1, some ⟨none, none⟩, [some ⟨none, none⟩]⟩ : VMState)._current_metadata ≠ none ∧
    VideoMetadata.available ⟨1, some ⟨none, none⟩, [some ⟨none, none⟩]⟩ = false :=
  ⟨rfl, rfl, by decide, rfl⟩

/-- C7 amended: on the absence marker availability is false and every
mandatory accessor faults; availability is true exactly when the current
record is present and truthy (non-empty), so a present empty record also
reads as unavailable. -/
theorem availability_iff_truthy (s : VMState) :
    (s._current_metadata = none →
      VideoMetadata.available s = false ∧
      VideoMetadata.id s = .error .typeError ∧
      VideoMetadata.title s = .error .typeError ∧
      VideoMetadata.description s = .error .typeError ∧
      VideoMetadata.time_published s = .error .typeError) ∧
    (VideoMetadata.available s = true ↔
      ∃ r, s._current_metadata = some r ∧ truthy r = true) := by
  constructor
  · intro h
    simp [VideoMetadata.available, VideoMetadata.id, VideoMetadata.title,
          VideoMetadata.description, VideoMetadata.time_published, h]
  · cases hc : s._current_metadata with
    | none => simp [VideoMetadata.available, hc]
    | some r => simp [VideoMetadata.available, hc]

/-- Witness for the amended C7 at a state whose current record is None. -/
theorem availability_iff_truthy_witness :
    VideoMetadata.available ⟨0, none, []⟩ = false ∧
    VideoMetadata.title ⟨0, none, []⟩ = .error .typeError :=
  ⟨((availability_iff_truthy ⟨0, none, []⟩).1 rfl).1,
   ((availability_iff_truthy ⟨0, none, []⟩).1 rfl).2.2.1⟩

/-- C9: on a present record, the optional accessors degrade gracefully: a
missing tags field (at either nesting level) yields an empty keyword list,
and missing categoryId, channelId or channelTitle yield empty strings. -/
theorem optional_fields_default (s : VMState) (r : VideoRecord)
    (hc : s._current_metadata = some r) :
    ((r.snippet = none ∨ ∃ sn, r.snippet = some sn ∧ sn.tags = none) →
      VideoMetadata.keywords s = .ok []) ∧
    ((r.snippet = none ∨ ∃ sn, r.snippet = some sn ∧ sn.categoryId = none) →
      VideoMetadata.category_id s = .ok "") ∧
    ((r.snippet = none ∨ ∃ sn, r.snippet = some sn ∧ sn.channelId = none) →
      VideoMetadata.channel_id s = .ok "") ∧
    ((r.snippet = none ∨ ∃ sn, r.snippet = some sn ∧ sn.channelTitle = none) →
      VideoMetadata.channel_title s = .ok "") := by
  refine ⟨?_, ?_, ?_, ?_⟩
  · rintro (hsn | ⟨sn, hsn, hf⟩)
    · simp [VideoMetadata.keywords, hc, hsn]
    · simp [VideoMetadata.keywords, hc, hsn, hf]
  · rintro (hsn | ⟨sn, hsn, hf⟩)
    · simp [VideoMetadata.category_id, hc, hsn]
    · simp [VideoMetadata.category_id, hc, hsn, hf]
  · rintro (hsn | ⟨sn, hsn, hf⟩)
    · simp [VideoMetadata.channel_id, hc, hsn]
    · simp [VideoMetadata.channel_id, hc, hsn, hf]
  · rintro (hsn | ⟨sn, hsn, hf⟩)
    · simp [VideoMetadata.channel_title, hc, hsn]
    · simp [VideoMetadata.channel_title, hc, hsn, hf]

/-- Witness for C9 at a present record carrying no snippet at all. -/
theorem optional_fields_default_witness :
    VideoMetadata.keywords ⟨0, some ⟨some "X", none⟩, []⟩ = .ok [] ∧
    VideoMetadata.category_id ⟨0, some ⟨some "X", none⟩, []⟩ = .ok "" ∧
    VideoMetadata.channel_id ⟨0, some ⟨some "X", none⟩, []⟩ = .ok "" ∧
    VideoMetadata.channel_title ⟨0, some ⟨some "X", none⟩, []⟩ = .ok "" := by
  obtain ⟨h1, h2, h3, h4⟩ := optional_fields_default ⟨0, some ⟨some "X", none⟩, []⟩ ⟨some "X", none⟩ rfl
  exact ⟨h1 (Or.inl rfl), h2 (Or.inl rfl), h3 (Or.inl rfl), h4 (Or.inl rfl)⟩

/-- C8: for a container built from a pre-fetched response, when the call
sequence reset; advance; advance; reset completes without fault it leaves
the cursor equal to its value immediately after construction (0), so the
batch can be re-traversed from position 0. -/
theorem reset_idempotent (build : String → Client) (cl : Client)
    (items : List (Option VideoRecord)) (s0 : VMState)
    (hinit : VideoMetadata.init build [] "" (some items) (some cl) = .ok s0)
    (hok : (reset_advance_advance_reset s0).1 = .ok ()) :
    (reset_advance_advance_reset s0).2._index_next_video = s0._index_next_video := by
  have heq : VideoMetadata.init build [] "" (some items) (some cl) = .ok ⟨0, none, items⟩ := rfl
  rw [heq] at hinit
  have hs0 : s0 = ⟨0, none, items⟩ := ((Except.ok.injEq _ _).mp hinit).symm
  subst hs0
  rcases items with _ | ⟨a, _ | ⟨b, l⟩⟩
  · simp [reset_advance_advance_reset, VideoMetadata.iter, VideoMetadata.next] at hok
  · simp [reset_advance_advance_reset, VideoMetadata.iter, VideoMetadata.next] at hok
  · simp [reset_advance_advance_reset, VideoMetadata.iter, VideoMetadata.next]

/-- Witness for C8 on a two-element batch, where both advances succeed. -/
theorem reset_idempotent_witness :
    VideoMetadata.init (fun _ => fun _ => []) [] "" (some [none, none]) (some fun _ => []) =
      .ok ⟨0, none, [none, none]⟩ ∧
    (reset_advance_advance_reset ⟨0, none, [none, none]⟩).1 = .ok () ∧
    (reset_advance_advance_reset ⟨0, none, [none, none]⟩).2._index_next_video =
      (⟨0, none, [none, none]⟩ : VMState)._index_next_video :=
  ⟨rfl, rfl, reset_idempotent (fun _ => fun _ => []) (fun _ => []) [none, none] ⟨0, none, [none, none]⟩ rfl rfl⟩

/-- C10: when advance raises StopIteration the cursor and current record are
left unchanged (the state is returned as it was), and after exhausting a
non-empty batch by advancing length-many times the current record is the
last batch element; the failing extra advance leaves it readable. -/
theorem next_exhaustion_atomic (items : List (Option VideoRecord)) (hne : items ≠ []) :
    (∀ s : VMState, (VideoMetadata.next s).1 = .error .stopIteration →
      (VideoMetadata.next s).2 = s) ∧
    (VideoMetadata.next (advN items.length ⟨0, none, items⟩)).1 = .error .stopIteration ∧
    (VideoMetadata.next (advN items.length ⟨0, none, items⟩)).2 =
      advN items.length ⟨0, none, items⟩ ∧
    some (advN items.length ⟨0, none, items⟩)._current_metadata = items.getLast? := by
  refine ⟨?_, ?_⟩
  · intro s h
    cases hx : s._multi_metadata[s._index_next_video]? with
    | some m =>
      unfold VideoMetadata.next at h
      rw [hx] at h
      simp at h
    | none =>
      rw [next_out_of_range s hx]
  · obtain ⟨n, hn⟩ : ∃ n, items.length = n + 1 := by
      cases items with
      | nil => exact absurd rfl hne
      | cons a l => exact ⟨l.length, rfl⟩
    obtain ⟨hmulti, hidx, hcur⟩ :=
      advN_run n ⟨0, none, items⟩ (by simpa using hn.symm)
    rw [hn]
    have hnone :
        (advN (n + 1) ⟨0, none, items⟩)._multi_metadata[
          (advN (n + 1) ⟨0, none, items⟩)._index_next_video]? = none := by
      rw [hmulti, hidx]
      exact List.getElem?_eq_none_iff.mpr (by simp)
    rw [next_out_of_range _ hnone]
    exact ⟨rfl, rfl, hcur⟩

/-- Witness for C10 on a one-element batch. -/
theorem next_exhaustion_atomic_witness :
    (([some ⟨some "A", none⟩] : List (Option VideoRecord)) ≠ []) ∧
    ((∀ s : VMState, (VideoMetadata.next s).1 = .error .stopIteration →
        (VideoMetadata.next s).2 = s) ∧
      (VideoMetadata.next (advN ([some ⟨some "A", none⟩] : List (Option VideoRecord)).length
          ⟨0, none, [some ⟨some "A", none⟩]⟩)).1 = .error .stopIteration ∧
      (VideoMetadata.next (advN ([some ⟨some "A", none⟩] : List (Option VideoRecord)).length
          ⟨0, none, [some ⟨some "A", none⟩]⟩)).2 =
        advN ([some ⟨some "A", none⟩] : List (Option VideoRecord)).length
          ⟨0, none, [some ⟨some "A", none⟩]⟩ ∧
      some (advN ([some ⟨some "A", none⟩] : List (Option VideoRecord)).length
          ⟨0, none, [some ⟨some "A", none⟩]⟩)._current_metadata =
        ([some ⟨some "A", none⟩] : List (Option VideoRecord)).getLast?) :=
  ⟨by decide, next_exhaustion_atomic [some ⟨some "A", none⟩] (by decide)⟩
